import Mathlib

/-!
Shallow embedding of the gasless-vault program: a custodial token vault
with whitelist-gated borrowing that splits each borrowed amount equally
among three caller-supplied recipients and keeps a per-borrower cumulative
ledger.  The on-chain instruction handlers are not part of the repository
snapshot (only their TypeScript test harness and devnet driver are), so
each handler below is modelled from the specification's behavioural
contract, with account shapes matching the fields the test harness reads.
-/

namespace GaslessVault

/-- A participant identity (public key), modelled as a natural number. -/
abbrev Identity := Nat

/-- A (token) account address, modelled as a natural number. -/
abbrev AccountId := Nat

/-- Modelled from the spec: the named error conditions surfaced by the
missing on-chain program, plus two environment-level conditions: the
runtime's failure to resolve a not-yet-created account, and the unnamed
validation failure for a non-positive deposit amount. -/
inductive VaultError where
  | AlreadyInitialized
  | Unauthorized
  | AlreadyRegistered
  | InsufficientFunds
  | InvalidDistributionAmount
  | NotWhitelisted
  | MissingSignature
  | AccountNotInitialized
  | InvalidAmount
  deriving DecidableEq, Repr

/-- The byte sequence of a fixed seed string. -/
def strBytes (s : String) : List Nat := s.data.map Char.toNat

/-- The byte-buffer form of a key, as an injective encoding. -/
def keyBytes (k : Nat) : List Nat := [k]

/-- An injective encoding of a list of naturals into a natural. -/
def encodeList : List Nat → Nat
  | [] => 0
  | x :: xs => Nat.pair x (encodeList xs) + 1

/-- Modelled from the spec: the deterministic program-derived-address
function, a pure function of the seed byte-strings and the program id
(the runtime primitive the missing program calls for all derived
addresses). -/
def findProgramAddress (seeds : List (List Nat)) (programIdent : Nat) : Nat :=
  Nat.pair programIdent (encodeList (seeds.map encodeList))

/-- The fixed identity of the deployed program. -/
def programIdent : Nat := 1

/-- The vault address, derived from the fixed seed string "vault". -/
def vaultPda : AccountId := findProgramAddress [strBytes "vault"] programIdent

/-- The whitelist address, derived from the seed "whitelist" and the
vault address. -/
def whitelistPda (vault : AccountId) : AccountId :=
  findProgramAddress [strBytes "whitelist", keyBytes vault] programIdent

/-- The token-custody-entry address, derived from the seed "token_vault",
the vault address and the mint. -/
def tokenVaultPda (vault : AccountId) (mint : Identity) : AccountId :=
  findProgramAddress [strBytes "token_vault", keyBytes vault, keyBytes mint] programIdent

/-- The borrower-ledger address, derived from the seed "borrower", the
vault address and the borrower identity. -/
def borrowerPda (vault : AccountId) (borrower : Identity) : AccountId :=
  findProgramAddress [strBytes "borrower", keyBytes vault, keyBytes borrower] programIdent

/-- Modelled from the spec: the Vault record
(authority and count of registered mints). -/
structure Vault where
  authority : Identity
  tokenCount : Nat
  deriving DecidableEq, Repr

/-- Modelled from the spec: the Whitelist record bound to the vault,
holding the set of borrower identities allowed to borrow. -/
structure Whitelist where
  vault : AccountId
  addresses : List Identity
  deriving DecidableEq, Repr

/-- Modelled from the spec: a per-mint token custody entry binding a mint
to its program-controlled custody token account. -/
structure TokenVault where
  vault : AccountId
  mint : Identity
  tokenAccount : AccountId
  deriving DecidableEq, Repr

/-- Modelled from the spec: one per-mint cumulative entry of a borrower
ledger. -/
structure BorrowedAmount where
  mint : Identity
  amount : Nat
  deriving DecidableEq, Repr

/-- Modelled from the spec: the per-(vault, borrower) ledger record. -/
structure BorrowerAccount where
  borrower : Identity
  vault : AccountId
  borrowedAmounts : List BorrowedAmount
  deriving DecidableEq, Repr

/-- Modelled from the spec: the observable program state — the singleton
vault and whitelist (absent before initialization), the registered token
custody entries, every token account balance, and the borrower ledgers. -/
structure State where
  vault : Option Vault
  whitelist : Option Whitelist
  tokenVaults : List TokenVault
  balances : AccountId → Nat
  borrowers : List BorrowerAccount

/-- Credit a token account by an amount. -/
def credit (bal : AccountId → Nat) (a : AccountId) (amt : Nat) : AccountId → Nat :=
  fun x => if x = a then bal x + amt else bal x

/-- Debit a token account by an amount. -/
def debit (bal : AccountId → Nat) (a : AccountId) (amt : Nat) : AccountId → Nat :=
  fun x => if x = a then bal x - amt else bal x

/-- Look up the custody entry registered for a mint. -/
def findTokenVault (tvs : List TokenVault) (mint : Identity) : Option TokenVault :=
  tvs.find? (fun tv => tv.mint == mint)

/-- The cumulative amount recorded for a mint in a ledger entry list
(0 when no entry exists). -/
def lookupEntry : List BorrowedAmount → Identity → Nat
  | [], _ => 0
  | e :: rest, m => if e.mint = m then e.amount else lookupEntry rest m

/-- Add an amount to the ledger entry for a mint, creating the entry when
none exists. -/
def updateLedger : List BorrowedAmount → Identity → Nat → List BorrowedAmount
  | [], m, amt => [{ mint := m, amount := amt }]
  | e :: rest, m, amt =>
    if e.mint = m then { e with amount := e.amount + amt } :: rest
    else e :: updateLedger rest m amt

/-- The cumulative amount a borrower has drawn for a mint (0 when no
ledger record or entry exists). -/
def lookupBorrowed : List BorrowerAccount → Identity → Identity → Nat
  | [], _, _ => 0
  | b :: rest, bor, m =>
    if b.borrower = bor then lookupEntry b.borrowedAmounts m
    else lookupBorrowed rest bor m

/-- Record a successful draw in the borrower ledgers, creating the
per-borrower record lazily on the first successful distribution. -/
def updateBorrowers : List BorrowerAccount → AccountId → Identity → Identity → Nat →
    List BorrowerAccount
  | [], vp, bor, m, amt =>
    [{ borrower := bor, vault := vp, borrowedAmounts := [{ mint := m, amount := amt }] }]
  | b :: rest, vp, bor, m, amt =>
    if b.borrower = bor then
      { b with borrowedAmounts := updateLedger b.borrowedAmounts m amt } :: rest
    else b :: updateBorrowers rest vp bor m amt

/-- Modelled from the spec: the missing initialize handler — creates
Vault(authority = caller, tokenCount = 0) and an empty Whitelist bound to
the vault, failing with AlreadyInitialized when a Vault already exists,
with no other side effect. -/
def initializeVault (caller : Identity) (s : State) : Except VaultError State :=
  match s.vault with
  | some _ => .error .AlreadyInitialized
  | none =>
    .ok { s with
          vault := some { authority := caller, tokenCount := 0 },
          whitelist := some { vault := vaultPda, addresses := [] } }

/-- Modelled from the spec: the missing addToWhitelist handler — only the
vault authority may add; a duplicate add is a no-op (the spec leaves the
duplicate behaviour open; no claim depends on it). -/
def addToWhitelist (caller addr : Identity) (s : State) : Except VaultError State :=
  match s.vault, s.whitelist with
  | some v, some wl =>
    if caller = v.authority then
      if addr ∈ wl.addresses then .ok s
      else .ok { s with whitelist := some { wl with addresses := wl.addresses ++ [addr] } }
    else .error .Unauthorized
  | _, _ => .error .AccountNotInitialized

/-- Modelled from the spec: the missing removeFromWhitelist handler —
only the vault authority may remove; removing a non-member is a no-op. -/
def removeFromWhitelist (caller addr : Identity) (s : State) : Except VaultError State :=
  match s.vault, s.whitelist with
  | some v, some wl =>
    if caller = v.authority then
      .ok { s with whitelist := some { wl with addresses := wl.addresses.erase addr } }
    else .error .Unauthorized
  | _, _ => .error .AccountNotInitialized

/-- Modelled from the spec: the missing addToken handler — only the vault
authority may register a mint; fails with AlreadyRegistered when an entry
for the mint exists; otherwise creates the custody entry and increments
tokenCount by exactly 1. -/
def addToken (caller : Identity) (mint : Identity) (tokenAccount : AccountId)
    (s : State) : Except VaultError State :=
  match s.vault with
  | none => .error .AccountNotInitialized
  | some v =>
    if caller = v.authority then
      match findTokenVault s.tokenVaults mint with
      | some _ => .error .AlreadyRegistered
      | none =>
        .ok { s with
              vault := some { v with tokenCount := v.tokenCount + 1 },
              tokenVaults := s.tokenVaults ++
                [{ vault := vaultPda, mint := mint, tokenAccount := tokenAccount }] }
    else .error .Unauthorized

/-- Modelled from the spec: the missing depositTokens handler — any
holder transfers a positive amount from a source account into the mint's
custody account, failing with InsufficientFunds when the source balance
is short. -/
def depositTokens (amount : Nat) (mint : Identity) (src : AccountId)
    (s : State) : Except VaultError State :=
  match s.vault with
  | none => .error .AccountNotInitialized
  | some _ =>
    match findTokenVault s.tokenVaults mint with
    | none => .error .AccountNotInitialized
    | some tv =>
      if amount = 0 then .error .InvalidAmount
      else if s.balances src < amount then .error .InsufficientFunds
      else
        .ok { s with balances := credit (debit s.balances src amount) tv.tokenAccount amount }

/-- Modelled from the spec: the missing borrowAndDistribute handler — in
order it checks that the amount is positive and divisible by 3
(InvalidDistributionAmount), that the borrower is whitelisted
(NotWhitelisted), and that custody holds at least the amount
(InsufficientFunds); on success it debits custody by the amount, credits
each of the three caller-supplied recipients by a third, and adds the
amount to the borrower's ledger entry for the mint, creating it if
absent. -/
def borrowAndDistribute (borrower : Identity) (amount : Nat) (mint : Identity)
    (r1 r2 r3 : AccountId) (s : State) : Except VaultError State :=
  match s.vault, s.whitelist with
  | some _, some wl =>
    if amount = 0 ∨ amount % 3 ≠ 0 then
      .error .InvalidDistributionAmount
    else if borrower ∈ wl.addresses then
      match findTokenVault s.tokenVaults mint with
      | none => .error .AccountNotInitialized
      | some tv =>
        if s.balances tv.tokenAccount < amount then .error .InsufficientFunds
        else
          .ok { s with
                balances :=
                  credit (credit (credit (debit s.balances tv.tokenAccount amount)
                    r1 (amount / 3)) r2 (amount / 3)) r3 (amount / 3),
                borrowers := updateBorrowers s.borrowers vaultPda borrower mint amount }
    else .error .NotWhitelisted
  | _, _ => .error .AccountNotInitialized

/-- The instruction surface of the program. -/
inductive Op where
  | initVault (caller : Identity)
  | addToWhitelist (caller addr : Identity)
  | removeFromWhitelist (caller addr : Identity)
  | addToken (caller mint : Identity) (tokenAccount : AccountId)
  | depositTokens (amount : Nat) (mint : Identity) (src : AccountId)
  | borrowAndDistribute (borrower : Identity) (amount : Nat) (mint : Identity)
      (r1 r2 r3 : AccountId)

/-- Dispatch one instruction. -/
def runOp : Op → State → Except VaultError State
  | .initVault c, s => initializeVault c s
  | .addToWhitelist c a, s => addToWhitelist c a s
  | .removeFromWhitelist c a, s => removeFromWhitelist c a s
  | .addToken c m ta, s => addToken c m ta s
  | .depositTokens amt m src, s => depositTokens amt m src s
  | .borrowAndDistribute b amt m r1 r2 r3, s => borrowAndDistribute b amt m r1 r2 r3 s

/-- Atomic application of one instruction: a failed instruction leaves
the state entirely unchanged. -/
def step (op : Op) (s : State) : State :=
  match runOp op s with
  | .ok s' => s'
  | .error _ => s

/-- Replay a sequence of instructions. -/
def replay : List Op → State → State
  | [], s => s
  | op :: ops, s => replay ops (step op s)

/-- The pre-deployment state: no vault, no whitelist, no custody entries,
no borrower ledgers. -/
def genesis (bal : AccountId → Nat) : State :=
  { vault := none, whitelist := none, tokenVaults := [], balances := bal, borrowers := [] }

/-- The token-count invariant: before initialization no custody entry
exists, and afterwards Vault.tokenCount equals the number of custody
entries ever created (entries are never deleted). -/
def tokenCountOk (s : State) : Prop :=
  (s.vault = none → s.tokenVaults = []) ∧
  ∀ v, s.vault = some v → v.tokenCount = s.tokenVaults.length

/-- A sequence of borrowAndDistribute calls by one borrower for one mint
and one fixed recipient triple. -/
def distributeAll (borrower mint : Identity) (r1 r2 r3 : AccountId) :
    List Nat → State → State
  | [], s => s
  | a :: rest, s =>
    distributeAll borrower mint r1 r2 r3 rest
      (step (.borrowAndDistribute borrower a mint r1 r2 r3) s)

/-- The cumulative borrowed amount recorded in the state for a borrower
and mint. -/
def borrowedAmount (s : State) (bor m : Identity) : Nat :=
  lookupBorrowed s.borrowers bor m

/-- A concrete post-setup state used to evaluate the handlers: authority 5,
borrower 7 whitelisted, mint 9 registered with custody account 100 holding
300 units, and no ledger records yet. -/
def sInit : State :=
  { vault := some { authority := 5, tokenCount := 1 },
    whitelist := some { vault := vaultPda, addresses := [7] },
    tokenVaults := [{ vault := vaultPda, mint := 9, tokenAccount := 100 }],
    balances := fun a => if a = 100 then 300 else 0,
    borrowers := [] }

/-- The state sInit after borrower 7 draws 30 of mint 9 split among
accounts 1, 2 and 3. -/
def sAfter : State :=
  { sInit with
    balances := credit (credit (credit (debit sInit.balances 100 30) 1 10) 2 10) 3 10,
    borrowers := updateBorrowers sInit.borrowers vaultPda 7 9 30 }

/-- The state sInit after the authority removes borrower 7 from the
whitelist. -/
def sRemoved : State :=
  { sInit with whitelist := some { vault := vaultPda, addresses := [] } }

theorem credit_at (bal : AccountId → Nat) (a : AccountId) (amt : Nat) :
    credit bal a amt a = bal a + amt := by
  simp [credit]

theorem credit_ne (bal : AccountId → Nat) (a : AccountId) (amt : Nat) (x : AccountId)
    (h : x ≠ a) : credit bal a amt x = bal x := by
  simp [credit, h]

theorem debit_at (bal : AccountId → Nat) (a : AccountId) (amt : Nat) :
    debit bal a amt a = bal a - amt := by
  simp [debit]

theorem debit_ne (bal : AccountId → Nat) (a : AccountId) (amt : Nat) (x : AccountId)
    (h : x ≠ a) : debit bal a amt x = bal x := by
  simp [debit, h]

theorem step_of_error (op : Op) (s : State) (e : VaultError)
    (h : runOp op s = .error e) : step op s = s := by
  simp [step, h]

theorem step_of_ok (op : Op) (s s' : State)
    (h : runOp op s = .ok s') : step op s = s' := by
  simp [step, h]

theorem lookupEntry_updateLedger (es : List BorrowedAmount) (m0 : Identity) (amt : Nat)
    (m : Identity) :
    lookupEntry (updateLedger es m0 amt) m
      = lookupEntry es m + (if m = m0 then amt else 0) := by
  induction es with
  | nil =>
    simp only [updateLedger, lookupEntry, Nat.zero_add]
    by_cases hm : m = m0
    · subst hm; simp
    · rw [if_neg (fun hh => hm hh.symm), if_neg hm]
  | cons e rest ih =>
    simp only [updateLedger]
    by_cases h : e.mint = m0
    · simp only [if_pos h, lookupEntry]
      by_cases h2 : e.mint = m
      · have hm : m = m0 := h2.symm.trans h
        simp [h2, hm]
      · have hm : m ≠ m0 := fun hh => h2 (h.trans hh.symm)
        simp [h2, hm]
    · simp only [if_neg h, lookupEntry]
      by_cases h2 : e.mint = m
      · have hm : m ≠ m0 := fun hh => h (h2.trans hh)
        simp [h2, hm]
      · simp [h2, ih]

theorem lookupBorrowed_updateBorrowers (l : List BorrowerAccount) (vp : AccountId)
    (b0 m0 : Identity) (amt : Nat) (b m : Identity) :
    lookupBorrowed (updateBorrowers l vp b0 m0 amt) b m
      = lookupBorrowed l b m + (if b = b0 ∧ m = m0 then amt else 0) := by
  induction l with
  | nil =>
    simp only [updateBorrowers, lookupBorrowed, lookupEntry, Nat.zero_add]
    by_cases hb : b0 = b
    · subst hb
      by_cases hm : m = m0
      · subst hm; simp
      · have hm2 : ¬ m0 = m := fun hh => hm hh.symm
        simp [hm, hm2]
    · have hne : ¬(b = b0 ∧ m = m0) := fun hh => hb hh.1.symm
      simp [hb, hne]
  | cons hd rest ih =>
    simp only [updateBorrowers]
    by_cases hb : hd.borrower = b0
    · simp only [if_pos hb, lookupBorrowed]
      by_cases hb2 : hd.borrower = b
      · have hbb : b = b0 := hb2.symm.trans hb
        simp [hb2, hbb, lookupEntry_updateLedger]
      · have hne : ¬(b = b0 ∧ m = m0) := fun hh => hb2 (hb.trans hh.1.symm)
        simp [hb2, hne]
    · simp only [if_neg hb, lookupBorrowed]
      by_cases hb2 : hd.borrower = b
      · have hne : ¬(b = b0 ∧ m = m0) := fun hh => hb (hb2.trans hh.1)
        simp [hb2, hne]
      · simp [hb2, ih]

theorem borrow_ok (s : State) (v : Vault) (wl : Whitelist) (tv : TokenVault)
    (borrower : Identity) (amount : Nat) (mint : Identity) (r1 r2 r3 : AccountId)
    (hv : s.vault = some v) (hw : s.whitelist = some wl)
    (hpos : amount ≠ 0) (hdiv : amount % 3 = 0)
    (hmem : borrower ∈ wl.addresses)
    (htv : findTokenVault s.tokenVaults mint = some tv)
    (hbal : amount ≤ s.balances tv.tokenAccount) :
    borrowAndDistribute borrower amount mint r1 r2 r3 s =
      .ok { s with
            balances :=
              credit (credit (credit (debit s.balances tv.tokenAccount amount)
                r1 (amount / 3)) r2 (amount / 3)) r3 (amount / 3),
            borrowers := updateBorrowers s.borrowers vaultPda borrower mint amount } := by
  unfold borrowAndDistribute
  simp [hv, hw, htv, hpos, hdiv, hmem, Nat.not_lt.mpr hbal]

theorem borrow_ok_inv (s s' : State) (borrower : Identity) (amount : Nat) (mint : Identity)
    (r1 r2 r3 : AccountId)
    (hok : borrowAndDistribute borrower amount mint r1 r2 r3 s = .ok s') :
    ∃ wl tv, s.whitelist = some wl ∧ findTokenVault s.tokenVaults mint = some tv ∧
      amount ≠ 0 ∧ amount % 3 = 0 ∧ borrower ∈ wl.addresses ∧
      amount ≤ s.balances tv.tokenAccount ∧
      s' = { s with
             balances :=
               credit (credit (credit (debit s.balances tv.tokenAccount amount)
                 r1 (amount / 3)) r2 (amount / 3)) r3 (amount / 3),
             borrowers := updateBorrowers s.borrowers vaultPda borrower mint amount } := by
  unfold borrowAndDistribute at hok
  split at hok
  · rename_i v wl hv hw
    split at hok
    · exact Except.noConfusion hok
    · rename_i hcond
      split at hok
      · rename_i hmem
        split at hok
        · exact Except.noConfusion hok
        · rename_i tv htv
          split at hok
          · exact Except.noConfusion hok
          · rename_i hlt
            injection hok with hs
            push_neg at hcond
            exact ⟨wl, tv, hw, htv, hcond.1, hcond.2, hmem, Nat.not_lt.mp hlt, hs.symm⟩
      · exact Except.noConfusion hok
  · exact Except.noConfusion hok

theorem initializeVault_ok_inv (c : Identity) (s s' : State)
    (h : initializeVault c s = .ok s') :
    s.vault = none ∧ s'.vault = some { authority := c, tokenCount := 0 } ∧
      s'.tokenVaults = s.tokenVaults ∧ s'.borrowers = s.borrowers := by
  unfold initializeVault at h
  split at h
  · exact Except.noConfusion h
  · rename_i hv
    injection h with hs
    subst hs
    exact ⟨hv, rfl, rfl, rfl⟩

theorem addToWhitelist_ok_inv (c a : Identity) (s s' : State)
    (h : addToWhitelist c a s = .ok s') :
    s'.vault = s.vault ∧ s'.tokenVaults = s.tokenVaults ∧
      s'.borrowers = s.borrowers := by
  unfold addToWhitelist at h
  split at h
  · split at h
    · split at h
      · injection h with hs
        subst hs
        exact ⟨rfl, rfl, rfl⟩
      · injection h with hs
        subst hs
        exact ⟨rfl, rfl, rfl⟩
    · exact Except.noConfusion h
  · exact Except.noConfusion h

theorem removeFromWhitelist_ok_inv (c a : Identity) (s s' : State)
    (h : removeFromWhitelist c a s = .ok s') :
    s'.vault = s.vault ∧ s'.tokenVaults = s.tokenVaults ∧
      s'.borrowers = s.borrowers := by
  unfold removeFromWhitelist at h
  split at h
  · split at h
    · injection h with hs
      subst hs
      exact ⟨rfl, rfl, rfl⟩
    · exact Except.noConfusion h
  · exact Except.noConfusion h

theorem addToken_ok_inv (c m : Identity) (ta : AccountId) (s s' : State)
    (h : addToken c m ta s = .ok s') :
    ∃ v, s.vault = some v ∧
      s'.vault = some { v with tokenCount := v.tokenCount + 1 } ∧
      s'.tokenVaults = s.tokenVaults ++
        [{ vault := vaultPda, mint := m, tokenAccount := ta }] ∧
      s'.borrowers = s.borrowers := by
  unfold addToken at h
  split at h
  · exact Except.noConfusion h
  · rename_i v hv
    split at h
    · split at h
      · exact Except.noConfusion h
      · injection h with hs
        subst hs
        exact ⟨v, hv, rfl, rfl, rfl⟩
    · exact Except.noConfusion h

theorem depositTokens_ok_inv (amt : Nat) (m : Identity) (src : AccountId) (s s' : State)
    (h : depositTokens amt m src s = .ok s') :
    s'.vault = s.vault ∧ s'.tokenVaults = s.tokenVaults ∧
      s'.borrowers = s.borrowers := by
  unfold depositTokens at h
  split at h
  · exact Except.noConfusion h
  · split at h
    · exact Except.noConfusion h
    · split at h
      · exact Except.noConfusion h
      · split at h
        · exact Except.noConfusion h
        · injection h with hs
          subst hs
          exact ⟨rfl, rfl, rfl⟩

theorem tokenCountOk_congr (s s' : State) (hv : s'.vault = s.vault)
    (ht : s'.tokenVaults = s.tokenVaults) (h : tokenCountOk s) : tokenCountOk s' := by
  refine ⟨fun hh => ?_, fun v hvv => ?_⟩
  · rw [ht]
    exact h.1 (hv.symm.trans hh)
  · rw [ht]
    exact h.2 v (hv.symm.trans hvv)

theorem step_tokenCountOk (op : Op) (s : State) (h : tokenCountOk s) :
    tokenCountOk (step op s) := by
  rcases hr : runOp op s with e | s'
  · rw [step_of_error op s e hr]
    exact h
  · rw [step_of_ok op s s' hr]
    cases op with
    | initVault c =>
      obtain ⟨hn, hv', htv', -⟩ := initializeVault_ok_inv c s s' hr
      refine ⟨fun hh => absurd (hv'.symm.trans hh) (by simp), fun v hv => ?_⟩
      have hveq : ({ authority := c, tokenCount := 0 } : Vault) = v :=
        Option.some.inj (hv'.symm.trans hv)
      subst hveq
      simp [htv', h.1 hn]
    | addToWhitelist c a =>
      obtain ⟨hv', htv', -⟩ := addToWhitelist_ok_inv c a s s' hr
      exact tokenCountOk_congr s s' hv' htv' h
    | removeFromWhitelist c a =>
      obtain ⟨hv', htv', -⟩ := removeFromWhitelist_ok_inv c a s s' hr
      exact tokenCountOk_congr s s' hv' htv' h
    | addToken c m ta =>
      obtain ⟨v, hv, hv', htv', -⟩ := addToken_ok_inv c m ta s s' hr
      refine ⟨fun hh => absurd (hv'.symm.trans hh) (by simp), fun v' hvv => ?_⟩
      have hveq : ({ v with tokenCount := v.tokenCount + 1 } : Vault) = v' :=
        Option.some.inj (hv'.symm.trans hvv)
      subst hveq
      simp [htv', h.2 v hv]
    | depositTokens amt m src =>
      obtain ⟨hv', htv', -⟩ := depositTokens_ok_inv amt m src s s' hr
      exact tokenCountOk_congr s s' hv' htv' h
    | borrowAndDistribute b amt m q1 q2 q3 =>
      obtain ⟨wl, tv, hw, htv, hpos, hdiv, hmem, hbal, hs⟩ :=
        borrow_ok_inv s s' b amt m q1 q2 q3 hr
      refine tokenCountOk_congr s s' ?_ ?_ h
      · rw [hs]
      · rw [hs]

theorem replay_tokenCountOk (ops : List Op) (s : State) (h : tokenCountOk s) :
    tokenCountOk (replay ops s) := by
  induction ops generalizing s with
  | nil => exact h
  | cons op rest ih => exact ih (step op s) (step_tokenCountOk op s h)

theorem lookupBorrowed_updateBorrowers_le (l : List BorrowerAccount) (vp : AccountId)
    (b0 m0 : Identity) (amt : Nat) (b m : Identity) :
    lookupBorrowed l b m ≤ lookupBorrowed (updateBorrowers l vp b0 m0 amt) b m := by
  rw [lookupBorrowed_updateBorrowers]
  exact Nat.le_add_right _ _

theorem step_ledger_mono (op : Op) (t : State) (b m : Identity) :
    borrowedAmount t b m ≤ borrowedAmount (step op t) b m := by
  rcases hr : runOp op t with e | t'
  · rw [step_of_error op t e hr]
  · rw [step_of_ok op t t' hr]
    cases op with
    | initVault c =>
      obtain ⟨-, -, -, hb⟩ := initializeVault_ok_inv c t t' hr
      unfold borrowedAmount
      rw [hb]
    | addToWhitelist c a =>
      obtain ⟨-, -, hb⟩ := addToWhitelist_ok_inv c a t t' hr
      unfold borrowedAmount
      rw [hb]
    | removeFromWhitelist c a =>
      obtain ⟨-, -, hb⟩ := removeFromWhitelist_ok_inv c a t t' hr
      unfold borrowedAmount
      rw [hb]
    | addToken c m0 ta =>
      obtain ⟨v, -, -, -, hb⟩ := addToken_ok_inv c m0 ta t t' hr
      unfold borrowedAmount
      rw [hb]
    | depositTokens amt m0 src =>
      obtain ⟨-, -, hb⟩ := depositTokens_ok_inv amt m0 src t t' hr
      unfold borrowedAmount
      rw [hb]
    | borrowAndDistribute b0 amt m0 q1 q2 q3 =>
      obtain ⟨wl, tv, hw, htv, hpos, hdiv, hmem, hbal, hs⟩ :=
        borrow_ok_inv t t' b0 amt m0 q1 q2 q3 hr
      subst hs
      exact lookupBorrowed_updateBorrowers_le t.borrowers vaultPda b0 m0 amt b m

theorem distributeAll_ledger (borrower mint : Identity) (r1 r2 r3 : AccountId)
    (amounts : List Nat) :
    ∀ (s : State) (v : Vault) (wl : Whitelist) (tv : TokenVault),
    s.vault = some v → s.whitelist = some wl → borrower ∈ wl.addresses →
    findTokenVault s.tokenVaults mint = some tv →
    tv.tokenAccount ≠ r1 → tv.tokenAccount ≠ r2 → tv.tokenAccount ≠ r3 →
    amounts.sum ≤ s.balances tv.tokenAccount →
    (∀ a ∈ amounts, a ≠ 0 ∧ a % 3 = 0) →
    borrowedAmount (distributeAll borrower mint r1 r2 r3 amounts s) borrower mint
      = borrowedAmount s borrower mint + amounts.sum := by
  induction amounts with
  | nil =>
    intro s v wl tv _ _ _ _ _ _ _ _ _
    simp [distributeAll]
  | cons a rest ih =>
    intro s v wl tv hv hw hmem htv hn1 hn2 hn3 hbal hall
    have ha := hall a (by simp)
    have hbal' : a + rest.sum ≤ s.balances tv.tokenAccount := by
      simpa using hbal
    have hok := borrow_ok s v wl tv borrower a mint r1 r2 r3 hv hw ha.1 ha.2 hmem htv
      (by omega)
    simp only [distributeAll]
    rw [step_of_ok (.borrowAndDistribute borrower a mint r1 r2 r3) s _ hok]
    have hcust : (credit (credit (credit (debit s.balances tv.tokenAccount a)
        r1 (a / 3)) r2 (a / 3)) r3 (a / 3)) tv.tokenAccount
        = s.balances tv.tokenAccount - a := by
      simp [credit, debit, hn1, hn2, hn3]
    have hb : rest.sum ≤ (credit (credit (credit (debit s.balances tv.tokenAccount a)
        r1 (a / 3)) r2 (a / 3)) r3 (a / 3)) tv.tokenAccount := by
      rw [hcust]
      omega
    rw [ih { s with
          balances := credit (credit (credit (debit s.balances tv.tokenAccount a)
            r1 (a / 3)) r2 (a / 3)) r3 (a / 3),
          borrowers := updateBorrowers s.borrowers vaultPda borrower mint a }
        v wl tv hv hw hmem htv hn1 hn2 hn3 hb
        (fun x hx => hall x (List.mem_cons_of_mem a hx))]
    simp [borrowedAmount, lookupBorrowed_updateBorrowers]
    omega

/-- C1: conservation of distribution — for every successful
borrowAndDistribute(amount) with three distinct recipients distinct from
custody, the custody token account decreases by exactly amount
(exactness witnessed by amount ≤ custody), each recipient is credited by
exactly amount / 3, and the sum of the three recipient balances
increases by exactly amount. -/
theorem borrow_conservation (s s' : State) (tv : TokenVault)
    (borrower : Identity) (amount : Nat) (mint : Identity) (r1 r2 r3 : Nat)
    (htv : findTokenVault s.tokenVaults mint = some tv)
    (hok : borrowAndDistribute borrower amount mint r1 r2 r3 s = .ok s')
    (h12 : r1 ≠ r2) (h13 : r1 ≠ r3) (h23 : r2 ≠ r3)
    (hc1 : r1 ≠ tv.tokenAccount) (hc2 : r2 ≠ tv.tokenAccount)
    (hc3 : r3 ≠ tv.tokenAccount) :
    s'.balances tv.tokenAccount = s.balances tv.tokenAccount - amount
    ∧ amount ≤ s.balances tv.tokenAccount
    ∧ s'.balances r1 = s.balances r1 + amount / 3
    ∧ s'.balances r2 = s.balances r2 + amount / 3
    ∧ s'.balances r3 = s.balances r3 + amount / 3
    ∧ s'.balances r1 + s'.balances r2 + s'.balances r3
        = s.balances r1 + s.balances r2 + s.balances r3 + amount := by
  obtain ⟨wl, tv', hw, htv', hpos, hdiv, hmem, hbal, hs⟩ :=
    borrow_ok_inv s s' borrower amount mint r1 r2 r3 hok
  have htveq : tv' = tv := Option.some.inj (htv'.symm.trans htv)
  subst htveq
  subst hs
  have hcr1 := Ne.symm hc1
  have hcr2 := Ne.symm hc2
  have hcr3 := Ne.symm hc3
  have h21 : r2 ≠ r1 := fun hh => h12 hh.symm
  have h31 : r3 ≠ r1 := fun hh => h13 hh.symm
  have h32 : r3 ≠ r2 := fun hh => h23 hh.symm
  have h3 : amount / 3 * 3 = amount := Nat.div_mul_cancel (Nat.dvd_of_mod_eq_zero hdiv)
  refine ⟨?_, hbal, ?_, ?_, ?_, ?_⟩
  · simp [credit, debit, hcr1, hcr2, hcr3]
  · simp [credit, debit, h12, h13, hc1]
  · simp [credit, debit, h21, h23, hc2]
  · simp [credit, debit, h31, h32, hc3]
  · simp [credit, debit, h12, h13, h21, h23, h31, h32, hc1, hc2, hc3]
    omega

/-- C1 witness: borrower 7 draws 30 of mint 9 from sInit into accounts
1, 2 and 3. -/
theorem borrow_conservation_witness :
    sAfter.balances 100 = sInit.balances 100 - 30 ∧ 30 ≤ sInit.balances 100 ∧
    sAfter.balances 1 = sInit.balances 1 + 30 / 3 ∧
    sAfter.balances 2 = sInit.balances 2 + 30 / 3 ∧
    sAfter.balances 3 = sInit.balances 3 + 30 / 3 ∧
    sAfter.balances 1 + sAfter.balances 2 + sAfter.balances 3
      = sInit.balances 1 + sInit.balances 2 + sInit.balances 3 + 30 :=
  borrow_conservation sInit sAfter
    { vault := vaultPda, mint := 9, tokenAccount := 100 } 7 30 9 1 2 3
    (by decide) (by rfl) (by decide) (by decide) (by decide)
    (by decide) (by decide) (by decide)

/-- C2: for every amount that is 0 or not divisible by 3,
borrowAndDistribute fails with InvalidDistributionAmount and the state —
every balance and ledger entry — is unchanged. -/
theorem borrow_invalid_amount (s : State) (v : Vault) (wl : Whitelist)
    (borrower : Identity) (amount : Nat) (mint : Identity) (r1 r2 r3 : AccountId)
    (hv : s.vault = some v) (hw : s.whitelist = some wl)
    (hbad : amount = 0 ∨ amount % 3 ≠ 0) :
    borrowAndDistribute borrower amount mint r1 r2 r3 s
      = .error .InvalidDistributionAmount
    ∧ step (.borrowAndDistribute borrower amount mint r1 r2 r3) s = s := by
  have herr : borrowAndDistribute borrower amount mint r1 r2 r3 s
      = .error .InvalidDistributionAmount := by
    unfold borrowAndDistribute
    simp only [hv, hw]
    rw [if_pos hbad]
  exact ⟨herr, step_of_error _ s _ herr⟩

/-- C2 witness: drawing 100 (not divisible by 3) from sInit fails with
InvalidDistributionAmount and changes nothing. -/
theorem borrow_invalid_amount_witness :
    borrowAndDistribute 7 100 9 1 2 3 sInit = .error .InvalidDistributionAmount
    ∧ step (.borrowAndDistribute 7 100 9 1 2 3) sInit = sInit :=
  borrow_invalid_amount sInit { authority := 5, tokenCount := 1 }
    { vault := vaultPda, addresses := [7] } 7 100 9 1 2 3 rfl rfl
    (Or.inr (by decide))

/-- C3 counterexample: borrower 8 is not a member of sInit's whitelist,
yet borrowAndDistribute with amount 100 reports
InvalidDistributionAmount, not NotWhitelisted — the amount check runs
before the whitelist check, so the claim as stated fails. -/
theorem borrow_nonwhitelisted_counterexample :
    sInit.whitelist = some { vault := vaultPda, addresses := [7] }
    ∧ (8 : Identity) ∉ ([7] : List Identity)
    ∧ borrowAndDistribute 8 100 9 1 2 3 sInit = .error .InvalidDistributionAmount
    ∧ VaultError.InvalidDistributionAmount ≠ VaultError.NotWhitelisted := by
  exact ⟨rfl, by decide, rfl, by decide⟩

/-- C3 (amended): for every borrower not in the whitelist at invocation
time — including one previously whitelisted and since removed — and
every amount passing the amount check (positive and divisible by 3),
borrowAndDistribute fails with NotWhitelisted and the state, custody and
recipient balances included, is unchanged. -/
theorem borrow_nonwhitelisted (s : State) (v : Vault) (wl : Whitelist)
    (borrower : Identity) (amount : Nat) (mint : Identity) (r1 r2 r3 : AccountId)
    (hv : s.vault = some v) (hw : s.whitelist = some wl)
    (hpos : amount ≠ 0) (hdiv : amount % 3 = 0)
    (hnm : borrower ∉ wl.addresses) :
    borrowAndDistribute borrower amount mint r1 r2 r3 s = .error .NotWhitelisted
    ∧ step (.borrowAndDistribute borrower amount mint r1 r2 r3) s = s := by
  have herr : borrowAndDistribute borrower amount mint r1 r2 r3 s
      = .error .NotWhitelisted := by
    unfold borrowAndDistribute
    simp [hv, hw, hpos, hdiv, hnm]
  exact ⟨herr, step_of_error _ s _ herr⟩

/-- C3 witness: borrower 7, whitelisted in sInit and since removed in
sRemoved, is rejected with NotWhitelisted on a borrow of 30. -/
theorem borrow_nonwhitelisted_witness :
    borrowAndDistribute 7 30 9 1 2 3 sRemoved = .error .NotWhitelisted
    ∧ step (.borrowAndDistribute 7 30 9 1 2 3) sRemoved = sRemoved :=
  borrow_nonwhitelisted sRemoved { authority := 5, tokenCount := 1 }
    { vault := vaultPda, addresses := [] } 7 30 9 1 2 3 rfl rfl
    (by decide) (by decide) (by decide)

/-- C5: the three borrow preconditions are evaluated in the fixed order
amount validity, whitelist membership, custody balance; the first
failing check determines the reported error, and every failing
invocation leaves the state unchanged. -/
theorem borrow_precondition_order (s : State) (v : Vault) (wl : Whitelist)
    (borrower : Identity) (amount : Nat) (mint : Identity) (r1 r2 r3 : AccountId)
    (hv : s.vault = some v) (hw : s.whitelist = some wl) :
    ((amount = 0 ∨ amount % 3 ≠ 0) →
       borrowAndDistribute borrower amount mint r1 r2 r3 s
         = .error .InvalidDistributionAmount)
    ∧ (amount ≠ 0 → amount % 3 = 0 → borrower ∉ wl.addresses →
       borrowAndDistribute borrower amount mint r1 r2 r3 s = .error .NotWhitelisted)
    ∧ (∀ tv, amount ≠ 0 → amount % 3 = 0 → borrower ∈ wl.addresses →
       findTokenVault s.tokenVaults mint = some tv →
       s.balances tv.tokenAccount < amount →
       borrowAndDistribute borrower amount mint r1 r2 r3 s = .error .InsufficientFunds)
    ∧ (∀ e, borrowAndDistribute borrower amount mint r1 r2 r3 s = .error e →
       step (.borrowAndDistribute borrower amount mint r1 r2 r3) s = s) := by
  refine ⟨?_, ?_, ?_, ?_⟩
  · intro hbad
    unfold borrowAndDistribute
    simp only [hv, hw]
    rw [if_pos hbad]
  · intro hpos hdiv hnm
    unfold borrowAndDistribute
    simp [hv, hw, hpos, hdiv, hnm]
  · intro tv hpos hdiv hmem htv hlt
    unfold borrowAndDistribute
    simp [hv, hw, htv, hpos, hdiv, hmem, hlt]
  · intro e herr
    exact step_of_error _ s _ herr

/-- C5 witness: a non-whitelisted borrower requesting the non-divisible
amount 100 from sInit receives InvalidDistributionAmount, not
NotWhitelisted, and the state is unchanged. -/
theorem borrow_precondition_order_witness :
    borrowAndDistribute 8 100 9 1 2 3 sInit = .error .InvalidDistributionAmount
    ∧ step (.borrowAndDistribute 8 100 9 1 2 3) sInit = sInit := by
  have h := borrow_precondition_order sInit { authority := 5, tokenCount := 1 }
    { vault := vaultPda, addresses := [7] } 8 100 9 1 2 3 rfl rfl
  have herr := h.1 (Or.inr (by decide))
  exact ⟨herr, h.2.2.2 _ herr⟩

/-- C9: in every successful borrowAndDistribute, a token account that is
none of the three caller-supplied recipients and not the custody account
— in particular the borrower's own token account when it is not supplied
as a recipient — keeps its balance unchanged; the entire amount moves
only between custody and the three recipients. -/
theorem borrow_untouched_account (s s' : State) (tv : TokenVault)
    (borrower : Identity) (amount : Nat) (mint : Identity) (r1 r2 r3 a : AccountId)
    (htv : findTokenVault s.tokenVaults mint = some tv)
    (hok : borrowAndDistribute borrower amount mint r1 r2 r3 s = .ok s')
    (h1 : a ≠ r1) (h2 : a ≠ r2) (h3 : a ≠ r3) (h4 : a ≠ tv.tokenAccount) :
    s'.balances a = s.balances a := by
  obtain ⟨wl, tv', hw, htv', hpos, hdiv, hmem, hbal, hs⟩ :=
    borrow_ok_inv s s' borrower amount mint r1 r2 r3 hok
  have htveq : tv' = tv := Option.some.inj (htv'.symm.trans htv)
  subst htveq
  subst hs
  simp [credit, debit, h1, h2, h3, h4]

/-- C9 witness: account 50 (the borrower's own token account, not among
the recipients) is unchanged by the draw from sInit to sAfter. -/
theorem borrow_untouched_account_witness :
    sAfter.balances 50 = sInit.balances 50 :=
  borrow_untouched_account sInit sAfter
    { vault := vaultPda, mint := 9, tokenAccount := 100 } 7 30 9 1 2 3 50
    (by decide) (by rfl) (by decide) (by decide) (by decide) (by decide)

/-- C10: a successful removeFromWhitelist changes only the whitelist
membership — every balance, the vault record, the custody entries and
every borrower ledger (the removed borrower's accumulated amounts
included) are unchanged. -/
theorem removeFromWhitelist_frame (s s' : State) (caller addr : Identity)
    (wl : Whitelist)
    (hw : s.whitelist = some wl)
    (hok : removeFromWhitelist caller addr s = .ok s') :
    s'.balances = s.balances ∧ s'.vault = s.vault ∧
    s'.tokenVaults = s.tokenVaults ∧ s'.borrowers = s.borrowers ∧
    s'.whitelist = some { wl with addresses := wl.addresses.erase addr } ∧
    (∀ b m, borrowedAmount s' b m = borrowedAmount s b m) := by
  unfold removeFromWhitelist at hok
  split at hok
  · rename_i v wl2 hv hw2
    split at hok
    · injection hok with hs
      subst hs
      have hwl : wl2 = wl := Option.some.inj (hw2.symm.trans hw)
      subst hwl
      exact ⟨rfl, rfl, rfl, rfl, rfl, fun b m => rfl⟩
    · exact Except.noConfusion hok
  · exact Except.noConfusion hok

/-- C10 witness: removing borrower 7 from sInit yields sRemoved and
leaves balances and ledgers untouched. -/
theorem removeFromWhitelist_frame_witness :
    sRemoved.balances = sInit.balances ∧ sRemoved.vault = sInit.vault ∧
    borrowedAmount sRemoved 7 9 = borrowedAmount sInit 7 9 := by
  have h := removeFromWhitelist_frame sInit sRemoved 5 7
    { vault := vaultPda, addresses := [7] } rfl rfl
  exact ⟨h.1, h.2.1, h.2.2.2.2.2 7 9⟩

/-- C7: initialize, called by any identity when no vault exists, creates
exactly Vault(authority = caller, tokenCount = 0) and an empty whitelist
referencing the vault address, with no other side effect; when a vault
already exists it fails with AlreadyInitialized. -/
theorem initializeVault_spec (s : State) (caller : Identity) :
    (s.vault = none →
       initializeVault caller s =
         .ok { s with
               vault := some { authority := caller, tokenCount := 0 },
               whitelist := some { vault := vaultPda, addresses := [] } })
    ∧ (∀ s', initializeVault caller s = .ok s' →
         s'.vault = some { authority := caller, tokenCount := 0 } ∧
         s'.whitelist = some { vault := vaultPda, addresses := [] } ∧
         s'.tokenVaults = s.tokenVaults ∧ s'.balances = s.balances ∧
         s'.borrowers = s.borrowers)
    ∧ (∀ v, s.vault = some v →
         initializeVault caller s = .error .AlreadyInitialized) := by
  refine ⟨?_, ?_, ?_⟩
  · intro h
    unfold initializeVault
    rw [h]
  · intro s' h
    unfold initializeVault at h
    split at h
    · exact Except.noConfusion h
    · injection h with hs
      subst hs
      exact ⟨rfl, rfl, rfl, rfl, rfl⟩
  · intro v hv
    unfold initializeVault
    rw [hv]

/-- C7 witness: initializing the pre-deployment state with caller 5. -/
theorem initializeVault_spec_witness :
    initializeVault 5 (genesis fun _ => 0) =
      .ok { genesis (fun _ => 0) with
            vault := some { authority := 5, tokenCount := 0 },
            whitelist := some { vault := vaultPda, addresses := [] } } :=
  (initializeVault_spec (genesis fun _ => 0) 5).1 rfl

/-- C8: the derived addresses are a deterministic pure function of fixed
seed strings and identifying keys — the vault address from seed "vault",
the whitelist address from "whitelist" plus the vault address, the
custody-entry address from "token_vault" plus vault and mint, the
borrower-ledger address from "borrower" plus vault and borrower; equal
inputs give equal addresses. -/
theorem derived_addresses_deterministic :
    (∀ (s1 s2 : List (List Nat)) (p1 p2 : Nat), s1 = s2 → p1 = p2 →
        findProgramAddress s1 p1 = findProgramAddress s2 p2)
    ∧ vaultPda = findProgramAddress [strBytes "vault"] programIdent
    ∧ (∀ v, whitelistPda v
        = findProgramAddress [strBytes "whitelist", keyBytes v] programIdent)
    ∧ (∀ v m, tokenVaultPda v m
        = findProgramAddress [strBytes "token_vault", keyBytes v, keyBytes m] programIdent)
    ∧ (∀ v b, borrowerPda v b
        = findProgramAddress [strBytes "borrower", keyBytes v, keyBytes b] programIdent) := by
  refine ⟨?_, rfl, fun v => rfl, fun v m => rfl, fun v b => rfl⟩
  intro s1 s2 p1 p2 h1 h2
  rw [h1, h2]

/-- C8 witness: determinism evaluated at the vault seed. -/
theorem derived_addresses_deterministic_witness :
    findProgramAddress [strBytes "vault"] programIdent
      = findProgramAddress [strBytes "vault"] programIdent :=
  derived_addresses_deterministic.1 [strBytes "vault"] [strBytes "vault"]
    programIdent programIdent rfl rfl

/-- C4: accumulation and monotonicity of the borrower ledger — for every
sequence of successful distributions (each amount positive and divisible
by 3, custody covering their sum, recipients distinct from custody) by
the same borrower for the same mint, the ledger entry for that mint ends
at its initial value plus the sum of the amounts (so the first success
creates it with a1 and each later one adds its amount), and no
instruction ever decreases any ledger entry. -/
theorem ledger_accumulation (borrower mint : Identity) (r1 r2 r3 : AccountId)
    (amounts : List Nat) (s : State) (v : Vault) (wl : Whitelist) (tv : TokenVault)
    (hv : s.vault = some v) (hw : s.whitelist = some wl)
    (hmem : borrower ∈ wl.addresses)
    (htv : findTokenVault s.tokenVaults mint = some tv)
    (hn1 : tv.tokenAccount ≠ r1) (hn2 : tv.tokenAccount ≠ r2)
    (hn3 : tv.tokenAccount ≠ r3)
    (hbal : amounts.sum ≤ s.balances tv.tokenAccount)
    (hall : ∀ a ∈ amounts, a ≠ 0 ∧ a % 3 = 0) :
    borrowedAmount (distributeAll borrower mint r1 r2 r3 amounts s) borrower mint
      = borrowedAmount s borrower mint + amounts.sum
    ∧ ∀ (op : Op) (t : State) (b m : Identity),
        borrowedAmount t b m ≤ borrowedAmount (step op t) b m :=
  ⟨distributeAll_ledger borrower mint r1 r2 r3 amounts s v wl tv hv hw hmem htv
      hn1 hn2 hn3 hbal hall,
   fun op t b m => step_ledger_mono op t b m⟩

/-- C4 witness: two successive draws of 30 by borrower 7 for mint 9 from
sInit accumulate to 60 in the ledger, and a step never decreases it. -/
theorem ledger_accumulation_witness :
    borrowedAmount (distributeAll 7 9 1 2 3 [30, 30] sInit) 7 9
      = borrowedAmount sInit 7 9 + [30, 30].sum
    ∧ borrowedAmount sInit 7 9
        ≤ borrowedAmount (step (.borrowAndDistribute 7 30 9 1 2 3) sInit) 7 9 := by
  have h := ledger_accumulation 7 9 1 2 3 [30, 30] sInit
    { authority := 5, tokenCount := 1 } { vault := vaultPda, addresses := [7] }
    { vault := vaultPda, mint := 9, tokenAccount := 100 }
    rfl rfl (by decide) (by decide) (by decide) (by decide) (by decide)
    (by decide) (by decide)
  exact ⟨h.1, h.2 (.borrowAndDistribute 7 30 9 1 2 3) sInit 7 9⟩

/-- C6: token-count invariant — initialize sets tokenCount to 0; in any
replay from the pre-deployment state, tokenCount equals the number of
custody entries ever created; a successful addToken increments
tokenCount by exactly 1 and creates exactly one custody entry; and
addToken by any caller other than the vault authority is rejected with
Unauthorized and changes nothing. -/
theorem tokenCount_invariant (ops : List Op) (bal : AccountId → Nat) :
    (∀ v, (replay ops (genesis bal)).vault = some v →
       v.tokenCount = (replay ops (genesis bal)).tokenVaults.length)
    ∧ (∀ (s s' : State) (c : Identity), initializeVault c s = .ok s' →
       s'.vault = some { authority := c, tokenCount := 0 })
    ∧ (∀ (s s' : State) (v : Vault) (c m : Identity) (ta : AccountId),
       s.vault = some v → addToken c m ta s = .ok s' →
       s'.vault = some { v with tokenCount := v.tokenCount + 1 } ∧
       s'.tokenVaults.length = s.tokenVaults.length + 1)
    ∧ (∀ (s : State) (v : Vault) (c m : Identity) (ta : AccountId),
       s.vault = some v → c ≠ v.authority →
       addToken c m ta s = .error .Unauthorized ∧ step (.addToken c m ta) s = s) := by
  refine ⟨?_, ?_, ?_, ?_⟩
  · intro v hv
    exact (replay_tokenCountOk ops (genesis bal)
      ⟨fun _ => rfl, fun v' hv' => Option.noConfusion hv'⟩).2 v hv
  · intro s s' c h
    exact (initializeVault_ok_inv c s s' h).2.1
  · intro s s' v c m ta hv h
    obtain ⟨v2, hv2, hv', htv', -⟩ := addToken_ok_inv c m ta s s' h
    have hveq : v2 = v := Option.some.inj (hv2.symm.trans hv)
    subst hveq
    exact ⟨hv', by simp [htv']⟩
  · intro s v c m ta hv hc
    have herr : addToken c m ta s = .error .Unauthorized := by
      unfold addToken
      simp [hv, hc]
    exact ⟨herr, step_of_error _ s _ herr⟩

/-- C6 witness: replaying initialize then one addToken yields
tokenCount 1 with exactly one custody entry, and a non-authority
addToken on sInit is rejected with Unauthorized. -/
theorem tokenCount_invariant_witness :
    Vault.tokenCount { authority := 5, tokenCount := 1 }
      = (replay [Op.initVault 5, Op.addToken 5 9 100]
          (genesis fun _ => 0)).tokenVaults.length
    ∧ addToken 6 11 200 sInit = .error .Unauthorized := by
  have h := tokenCount_invariant [Op.initVault 5, Op.addToken 5 9 100] (fun _ => 0)
  exact ⟨h.1 { authority := 5, tokenCount := 1 } rfl,
    (h.2.2.2 sInit { authority := 5, tokenCount := 1 } 6 11 200 rfl (by decide)).1⟩

end GaslessVault
